import Mathlib

/-!
Shallow embedding of the account-sync coordinator of the accounts redux
slice (`accountsSlice`, `handleSyncResponse`, `syncAccounts`).

State mutation through `dispatch` is modelled by explicit state passing;
every dispatched action and every provider call is also recorded in an
event trace so that trace properties (provider calls issued, progress
publications, notifications) can be stated.
-/

namespace ActualSync

/-- The fields of `AccountEntity` used by the sync coordinator.
`bank` is the provider-linkage field (`!!bank` in the source is
`bank.isSome` here); `offbudget` is the source's `0 | 1` flag as a `Bool`
(`false` = 0 = on-budget, `true` = 1 = off-budget). -/
structure AccountEntity where
  id : String
  bank : Option String
  closed : Bool
  tombstone : Bool
  offbudget : Bool
  sort_order : Int
  account_sync_source : Option String
deriving DecidableEq, Repr

/-- The error union of `SyncResponseWithErrors.errors`: an object with
`type === 'SyncError'` (carrying `category`, `code`, `message`), or any
other error object (carrying `message` and an optional `internal`). -/
inductive SyncIssue where
  | syncError (category code message : String)
  | genericIssue (message : String) (internal : Option String)
deriving DecidableEq, Repr

/-- `SyncResponseWithErrors`. -/
structure SyncResponse where
  errors : List SyncIssue
  newTransactions : List String
  matchedTransactions : List String
  updatedAccounts : List String
deriving DecidableEq, Repr

/-- A `failedAccounts` entry: `{ type, code }`. -/
structure Failure where
  type : String
  code : String
deriving DecidableEq, Repr

/-- `AccountState`: `failedAccounts` is a JS object keyed by account id
(modelled as an association list in insertion order) and
`accountsSyncing` is the id array. -/
structure AccountState where
  failedAccounts : List (String × Failure)
  accountsSyncing : List String
deriving DecidableEq, Repr

/-- `state.failedAccounts[id] = { type, code }`: overwrite in place when
the key exists, append otherwise (JS object assignment semantics). -/
def upsertFailure (l : List (String × Failure)) (id : String) (f : Failure) :
    List (String × Failure) :=
  if l.any (fun p => p.1 == id) then
    l.map (fun p => if p.1 == id then (id, f) else p)
  else
    l ++ [(id, f)]

/-- Reducer `setAccountsSyncing`. -/
def setAccountsSyncing (st : AccountState) (ids : List String) : AccountState :=
  { st with accountsSyncing := ids }

/-- Reducer `markAccountFailed`. -/
def markAccountFailed (st : AccountState) (id errorType errorCode : String) :
    AccountState :=
  { st with failedAccounts :=
      upsertFailure st.failedAccounts id ⟨errorType, errorCode⟩ }

/-- Reducer `markAccountSuccess` (`delete state.failedAccounts[id]`). -/
def markAccountSuccess (st : AccountState) (id : String) : AccountState :=
  { st with failedAccounts := st.failedAccounts.filter (fun p => p.1 != id) }

/-- First-match lookup in an association list. -/
def lookupFailure : List (String × Failure) → String → Option Failure
  | [], _ => none
  | p :: rest, id => if p.1 == id then some p.2 else lookupFailure rest id

/-- Lookup in the `failedAccounts` object. -/
def getFailed (st : AccountState) (id : String) : Option Failure :=
  lookupFailure st.failedAccounts id

/-- Observable actions and provider calls of one run, in dispatch order. -/
inductive Event where
  | providerAccountsGet
  | providerBatchSync (ids : List String)
  | providerBankSync (ids : List String)
  | setAccountsSyncing (ids : List String)
  | accountFailed (id errorType errorCode : String)
  | accountSuccess (id : String)
  | notify (message : String) (internal : Option String)
  | refreshAccounts
  | publishTransactions (newTransactions matchedTransactions updatedAccounts : List String)
deriving DecidableEq, Repr

/-- The running aggregate: the three mutable arrays (`newTransactions`,
`matchedTransactions`, `updatedAccounts`) threaded through the run. -/
structure Agg where
  newTransactions : List String
  matchedTransactions : List String
  updatedAccounts : List String
deriving DecidableEq, Repr

def Agg.empty : Agg := ⟨[], [], []⟩

/-- The notification dispatched for one issue in the `errors.forEach`
loop: a `SyncError` carries its message; any other error carries its
message and its `internal` detail when present. -/
def issueNotification (e : SyncIssue) : Event :=
  match e with
  | .syncError _ _ message => .notify message none
  | .genericIssue message internal => .notify message internal

/-- `handleSyncResponse(accountId, res, dispatch, resNewTransactions,
resMatchedTransactions, resUpdatedAccounts)`. Returns the updated state,
the updated aggregate (arrays after the `push(...)` calls), the events
dispatched by this call, and the boolean result. -/
def handleSyncResponse (accountId : String) (res : SyncResponse)
    (st : AccountState) (agg : Agg) :
    AccountState × Agg × List Event × Bool :=
  let healthStep : AccountState × List Event :=
    match res.errors with
    | [] => (markAccountSuccess st accountId, [.accountSuccess accountId])
    | error :: _ =>
      match error with
      | .syncError category code _ =>
          (markAccountFailed st accountId category code,
           [.accountFailed accountId category code])
      | .genericIssue _ _ => (st, [])
  let notifEvents := res.errors.map issueNotification
  let agg' : Agg :=
    ⟨agg.newTransactions ++ res.newTransactions,
     agg.matchedTransactions ++ res.matchedTransactions,
     agg.updatedAccounts ++ res.updatedAccounts⟩
  (healthStep.1, agg', healthStep.2 ++ notifEvents ++ [.refreshAccounts],
   res.newTransactions.length > 0 || res.matchedTransactions.length > 0)

/-- The `sort` comparator of `syncAccounts`:
`a.offbudget === b.offbudget ? a.sort_order - b.sort_order : a.offbudget - b.offbudget`
(with `offbudget` being `0 | 1`). -/
def syncCompare (a b : AccountEntity) : Int :=
  if a.offbudget = b.offbudget then a.sort_order - b.sort_order
  else (a.offbudget.toNat : Int) - (b.offbudget.toNat : Int)

/-- `a` sorts no later than `b` under the comparator. -/
def syncLe (a b : AccountEntity) : Prop := syncCompare a b ≤ 0

instance : DecidableRel syncLe :=
  fun a b => inferInstanceAs (Decidable (syncCompare a b ≤ 0))

/-- The eligibility filter of the "sync all" worklist:
`!!bank && !closed && !tombstone`. -/
def syncEligible (a : AccountEntity) : Bool :=
  a.bank.isSome && !a.closed && !a.tombstone

/-- The sorted eligible account list of "sync all" mode (a stable sort by
the comparator, as `Array.prototype.sort`). -/
def sortedEligible (accounts : List AccountEntity) : List AccountEntity :=
  (accounts.filter syncEligible).insertionSort syncLe

/-- The "sync all" worklist: eligible accounts, sorted, mapped to ids. -/
def computeWorklist (accounts : List AccountEntity) : List String :=
  (sortedEligible accounts).map AccountEntity.id

/-- `accountIdsToSync`: `[id]` when a target id is given, the full
eligible sorted worklist otherwise. -/
def accountIdsToSync (targetId : Option String) (queriesAccounts : List AccountEntity) :
    List String :=
  match targetId with
  | some id => [id]
  | none => computeWorklist queriesAccounts

/-- Whether an account is picked up by the SimpleFin filter
(`a.account_sync_source === 'simpleFin'`). -/
def isSimpleFin (a : AccountEntity) : Bool :=
  a.account_sync_source == some "simpleFin"

/-- The provider (the `send` endpoints), as response oracles. -/
structure Provider where
  accountsGet : List AccountEntity
  simplefinBatchSync : List String → List (String × SyncResponse)
  accountsBankSync : String → SyncResponse

/-- The `for (const account of res)` loop of the batch branch: feed every
per-account result through `handleSyncResponse`, OR-ing the success bit. -/
def runBatchPhase : List (String × SyncResponse) → AccountState → Agg → Bool →
    AccountState × Agg × Bool × List Event
  | [], st, agg, success => (st, agg, success, [])
  | (accountId, res) :: rest, st, agg, success =>
    let r := handleSyncResponse accountId res st agg
    let next := runBatchPhase rest r.1 r.2.1 (success || r.2.2.2)
    (next.1, next.2.1, next.2.2.1, r.2.2.1 ++ next.2.2.2)

/-- The sequential `for` loop of `syncAccounts`: one `accounts-bank-sync`
call per id, classify the response, then dispatch the remaining suffix as
the new `accountsSyncing`. -/
def runSequentialPhase (p : Provider) : List String → AccountState → Agg → Bool →
    AccountState × Agg × Bool × List Event
  | [], st, agg, success => (st, agg, success, [])
  | accountId :: rest, st, agg, success =>
    let r := handleSyncResponse accountId (p.accountsBankSync accountId) st agg
    let next := runSequentialPhase p rest (setAccountsSyncing r.1 rest) r.2.1
      (success || r.2.2.2)
    (next.1, next.2.1, next.2.2.1,
     Event.providerBankSync [accountId] :: r.2.2.1 ++
       (Event.setAccountsSyncing rest :: next.2.2.2))

/-- Result of one `syncAccounts` invocation. -/
structure RunResult where
  success : Bool
  state : AccountState
  events : List Event
deriving Repr

/-- `syncAccounts({ id })`: single-flight guard, worklist construction,
initial progress dispatch, `accounts-get` fetch, optional SimpleFin batch
phase, sequential phase, final aggregate publication and progress reset. -/
def syncAccounts (targetId : Option String) (p : Provider)
    (queriesAccounts : List AccountEntity) (st : AccountState) : RunResult :=
  if st.accountsSyncing.length > 0 then
    ⟨false, st, []⟩
  else
    let batchSync := targetId.isNone
    let ids := accountIdsToSync targetId queriesAccounts
    let st1 := setAccountsSyncing st ids
    let simpleFinAccounts := p.accountsGet.filter isSimpleFin
    let batchStep : List String × AccountState × Agg × Bool × List Event :=
      if batchSync && simpleFinAccounts.length > 0 then
        let batchIds := simpleFinAccounts.map AccountEntity.id
        let b := runBatchPhase (p.simplefinBatchSync batchIds) st1 Agg.empty false
        (ids.filter (fun i => !(simpleFinAccounts.any (fun sfa => sfa.id == i))),
         b.1, b.2.1, b.2.2.1, Event.providerBatchSync batchIds :: b.2.2.2)
      else (ids, st1, Agg.empty, false, [])
    let s := runSequentialPhase p batchStep.1 batchStep.2.1 batchStep.2.2.1
      batchStep.2.2.2.1
    ⟨s.2.2.1, setAccountsSyncing s.1 [],
     Event.setAccountsSyncing ids :: Event.providerAccountsGet ::
       batchStep.2.2.2.2 ++ s.2.2.2 ++
       [Event.publishTransactions s.2.1.newTransactions s.2.1.matchedTransactions
          s.2.1.updatedAccounts,
        Event.setAccountsSyncing []]⟩

/-! ### Trace projections -/

def eventBatchIds : Event → Option (List String)
  | .providerBatchSync ids => some ids
  | _ => none

def eventBankSyncIds : Event → Option (List String)
  | .providerBankSync ids => some ids
  | _ => none

def eventProgressIds : Event → Option (List String)
  | .setAccountsSyncing ids => some ids
  | _ => none

def eventNotify : Event → Option (String × Option String)
  | .notify message internal => some (message, internal)
  | _ => none

def eventPublished : Event → Option (List String × List String × List String)
  | .publishTransactions n m u => some (n, m, u)
  | _ => none

/-- The id lists of all batch provider calls in a trace. -/
def batchCalls (evs : List Event) : List (List String) :=
  evs.filterMap eventBatchIds

/-- The id lists of all individual provider calls in a trace. -/
def bankSyncCalls (evs : List Event) : List (List String) :=
  evs.filterMap eventBankSyncIds

/-- All sync-progress publications of a trace, in order. -/
def progressPubs (evs : List Event) : List (List String) :=
  evs.filterMap eventProgressIds

/-- All error notifications of a trace, in order. -/
def notifications (evs : List Event) : List (String × Option String) :=
  evs.filterMap eventNotify

/-- All published transaction-update aggregates of a trace. -/
def publishedAggregates (evs : List Event) :
    List (List String × List String × List String) :=
  evs.filterMap eventPublished

/-- The proper suffixes of a list, longest first. -/
def suffixes : List α → List (List α)
  | [] => []
  | _ :: t => t :: suffixes t

/-! ### The comparator is a total preorder -/

theorem syncLe_total (a b : AccountEntity) : syncLe a b ∨ syncLe b a := by
  cases ha : a.offbudget <;> cases hb : b.offbudget <;>
    simp [syncLe, syncCompare, ha, hb] <;> omega

instance : IsTotal AccountEntity syncLe := ⟨syncLe_total⟩

theorem syncLe_trans (a b c : AccountEntity) (hab : syncLe a b)
    (hbc : syncLe b c) : syncLe a c := by
  cases ha : a.offbudget <;> cases hb : b.offbudget <;> cases hc : c.offbudget <;>
    simp [syncLe, syncCompare, ha, hb, hc] at hab hbc ⊢ <;> omega

instance : IsTrans AccountEntity syncLe := ⟨syncLe_trans⟩

/-- The spec's reading of the comparator: same group is ordered by
`sort_order`; across groups the on-budget account comes first. -/
def specOrder (a b : AccountEntity) : Prop :=
  if a.offbudget = b.offbudget then a.sort_order ≤ b.sort_order
  else a.offbudget = false ∧ b.offbudget = true

theorem syncLe_imp_specOrder (a b : AccountEntity) (h : syncLe a b) :
    specOrder a b := by
  cases ha : a.offbudget <;> cases hb : b.offbudget <;>
    simp [syncLe, syncCompare, specOrder, ha, hb] at h ⊢ <;> omega

/-! ### `failedAccounts` association-map lemmas -/

theorem lookup_overwrite_self (l : List (String × Failure)) (id : String)
    (f : Failure) (h : l.any (fun p => p.1 == id) = true) :
    lookupFailure (l.map (fun p => if p.1 == id then (id, f) else p)) id
      = some f := by
  induction l with
  | nil => simp at h
  | cons x xs ih =>
    by_cases hx : x.1 = id
    · simp [lookupFailure, hx]
    · simp only [List.any_cons, Bool.or_eq_true, beq_iff_eq] at h
      simpa [lookupFailure, hx] using ih (h.resolve_left hx)

theorem lookup_append_fresh (l : List (String × Failure)) (id : String)
    (f : Failure) (h : l.any (fun p => p.1 == id) = false) :
    lookupFailure (l ++ [(id, f)]) id = some f := by
  induction l with
  | nil => simp [lookupFailure]
  | cons x xs ih =>
    simp only [List.any_cons, Bool.or_eq_false_iff] at h
    have hx : ¬(x.1 = id) := by simpa using h.1
    simpa [lookupFailure, hx] using ih h.2

theorem getFailed_markAccountFailed_self (st : AccountState) (id t c : String) :
    getFailed (markAccountFailed st id t c) id = some ⟨t, c⟩ := by
  unfold getFailed markAccountFailed upsertFailure
  by_cases h : st.failedAccounts.any (fun p => p.1 == id) = true
  · rw [if_pos h]
    exact lookup_overwrite_self st.failedAccounts id ⟨t, c⟩ h
  · rw [if_neg h]
    have h' : st.failedAccounts.any (fun p => p.1 == id) = false := by
      rwa [Bool.not_eq_true] at h
    exact lookup_append_fresh st.failedAccounts id ⟨t, c⟩ h'

theorem lookup_overwrite_other (l : List (String × Failure)) (id k : String)
    (f : Failure) (hk : k ≠ id) :
    lookupFailure (l.map (fun p => if p.1 == id then (id, f) else p)) k
      = lookupFailure l k := by
  induction l with
  | nil => rfl
  | cons x xs ih =>
    by_cases hx : x.1 = id
    · have h1 : ¬(id = k) := fun e => hk e.symm
      simpa [lookupFailure, hx, h1] using ih
    · by_cases hxk : x.1 = k
      · simp [lookupFailure, hx, hxk, hk]
      · simpa [lookupFailure, hx, hxk] using ih

theorem lookup_append_other (l : List (String × Failure)) (id k : String)
    (f : Failure) (h1 : ¬(id = k)) :
    lookupFailure (l ++ [(id, f)]) k = lookupFailure l k := by
  induction l with
  | nil => simp [lookupFailure, h1]
  | cons x xs ih =>
    by_cases hxk : x.1 = k
    · simp [lookupFailure, hxk]
    · simpa [lookupFailure, hxk] using ih

theorem getFailed_markAccountFailed_other (st : AccountState) (id t c k : String)
    (hk : k ≠ id) :
    getFailed (markAccountFailed st id t c) k = getFailed st k := by
  unfold getFailed markAccountFailed upsertFailure
  by_cases h : st.failedAccounts.any (fun p => p.1 == id) = true
  · rw [if_pos h]
    exact lookup_overwrite_other st.failedAccounts id k ⟨t, c⟩ hk
  · rw [if_neg h]
    exact lookup_append_other st.failedAccounts id k ⟨t, c⟩ (fun e => hk e.symm)

theorem lookup_filter_self (l : List (String × Failure)) (id : String) :
    lookupFailure (l.filter (fun p => p.1 != id)) id = none := by
  induction l with
  | nil => rfl
  | cons x xs ih =>
    by_cases hx : x.1 = id
    · simpa [List.filter_cons, hx] using ih
    · simp [List.filter_cons, hx, lookupFailure, ih]

theorem getFailed_markAccountSuccess_self (st : AccountState) (id : String) :
    getFailed (markAccountSuccess st id) id = none := by
  unfold getFailed markAccountSuccess
  exact lookup_filter_self st.failedAccounts id

theorem lookup_filter_ne (l : List (String × Failure)) (id k : String)
    (hk : k ≠ id) :
    lookupFailure (l.filter (fun p => p.1 != id)) k = lookupFailure l k := by
  induction l with
  | nil => rfl
  | cons x xs ih =>
    by_cases hx : x.1 = id
    · simp [List.filter_cons, hx, lookupFailure, Ne.symm hk, ih]
    · simp [List.filter_cons, hx, lookupFailure, ih]

theorem getFailed_markAccountSuccess_other (st : AccountState) (id k : String)
    (hk : k ≠ id) :
    getFailed (markAccountSuccess st id) k = getFailed st k := by
  unfold getFailed markAccountSuccess
  exact lookup_filter_ne st.failedAccounts id k hk

/-! ### `handleSyncResponse` structure lemmas -/

/-- The events dispatched by one `handleSyncResponse` call: the health
transition decided by the first issue, one notification per issue, then
the account-list refresh. -/
theorem handleSyncResponse_events (a : String) (res : SyncResponse)
    (st : AccountState) (agg : Agg) :
    (handleSyncResponse a res st agg).2.2.1 =
      (match res.errors with
       | [] => [Event.accountSuccess a]
       | .syncError cat code _ :: _ => [Event.accountFailed a cat code]
       | .genericIssue _ _ :: _ => ([] : List Event)) ++
        res.errors.map issueNotification ++ [Event.refreshAccounts] := by
  rcases res with ⟨errors, nt, mt, ua⟩
  match errors with
  | [] => rfl
  | .syncError cat code msg :: rest => rfl
  | .genericIssue msg intl :: rest => rfl

/-- The state after one `handleSyncResponse` call, decided by the first
issue only. -/
theorem handleSyncResponse_state (a : String) (res : SyncResponse)
    (st : AccountState) (agg : Agg) :
    (handleSyncResponse a res st agg).1 =
      (match res.errors with
       | [] => markAccountSuccess st a
       | .syncError cat code _ :: _ => markAccountFailed st a cat code
       | .genericIssue _ _ :: _ => st) := by
  rcases res with ⟨errors, nt, mt, ua⟩
  match errors with
  | [] => rfl
  | .syncError cat code msg :: rest => rfl
  | .genericIssue msg intl :: rest => rfl

/-- The aggregate after one `handleSyncResponse` call: plain array
concatenation of the response's deltas. -/
theorem handleSyncResponse_agg (a : String) (res : SyncResponse)
    (st : AccountState) (agg : Agg) :
    (handleSyncResponse a res st agg).2.1 =
      ⟨agg.newTransactions ++ res.newTransactions,
       agg.matchedTransactions ++ res.matchedTransactions,
       agg.updatedAccounts ++ res.updatedAccounts⟩ := by
  rcases res with ⟨errors, nt, mt, ua⟩
  match errors with
  | [] => rfl
  | .syncError cat code msg :: rest => rfl
  | .genericIssue msg intl :: rest => rfl

theorem handleSyncResponse_bool (a : String) (res : SyncResponse)
    (st : AccountState) (agg : Agg) :
    (handleSyncResponse a res st agg).2.2.2 =
      (res.newTransactions.length > 0 || res.matchedTransactions.length > 0) := by
  rcases res with ⟨errors, nt, mt, ua⟩
  match errors with
  | [] => rfl
  | .syncError cat code msg :: rest => rfl
  | .genericIssue msg intl :: rest => rfl

theorem eventProgressIds_issueNotification (e : SyncIssue) :
    eventProgressIds (issueNotification e) = none := by
  cases e <;> rfl

theorem eventBatchIds_issueNotification (e : SyncIssue) :
    eventBatchIds (issueNotification e) = none := by
  cases e <;> rfl

theorem eventBankSyncIds_issueNotification (e : SyncIssue) :
    eventBankSyncIds (issueNotification e) = none := by
  cases e <;> rfl

theorem eventPublished_issueNotification (e : SyncIssue) :
    eventPublished (issueNotification e) = none := by
  cases e <;> rfl

theorem filterMap_progress_notifs (es : List SyncIssue) :
    List.filterMap eventProgressIds (es.map issueNotification) = [] := by
  induction es with
  | nil => rfl
  | cons e rest ih =>
    rw [List.map_cons, List.filterMap_cons, eventProgressIds_issueNotification]
    exact ih

theorem filterMap_batch_notifs (es : List SyncIssue) :
    List.filterMap eventBatchIds (es.map issueNotification) = [] := by
  induction es with
  | nil => rfl
  | cons e rest ih =>
    rw [List.map_cons, List.filterMap_cons, eventBatchIds_issueNotification]
    exact ih

theorem filterMap_banksync_notifs (es : List SyncIssue) :
    List.filterMap eventBankSyncIds (es.map issueNotification) = [] := by
  induction es with
  | nil => rfl
  | cons e rest ih =>
    rw [List.map_cons, List.filterMap_cons, eventBankSyncIds_issueNotification]
    exact ih

theorem filterMap_published_notifs (es : List SyncIssue) :
    List.filterMap eventPublished (es.map issueNotification) = [] := by
  induction es with
  | nil => rfl
  | cons e rest ih =>
    rw [List.map_cons, List.filterMap_cons, eventPublished_issueNotification]
    exact ih

/-- `handleSyncResponse` publishes no sync progress. -/
theorem progressPubs_handleSyncResponse (a : String) (res : SyncResponse)
    (st : AccountState) (agg : Agg) :
    progressPubs (handleSyncResponse a res st agg).2.2.1 = [] := by
  rw [progressPubs, handleSyncResponse_events]
  rcases res with ⟨errors, nt, mt, ua⟩
  match errors with
  | [] => rfl
  | .syncError cat code msg :: rest =>
    rw [List.filterMap_append, List.filterMap_append, filterMap_progress_notifs]
    rfl
  | .genericIssue msg intl :: rest =>
    rw [List.filterMap_append, List.filterMap_append, filterMap_progress_notifs]
    rfl

/-- `handleSyncResponse` issues no batch provider call. -/
theorem batchCalls_handleSyncResponse (a : String) (res : SyncResponse)
    (st : AccountState) (agg : Agg) :
    batchCalls (handleSyncResponse a res st agg).2.2.1 = [] := by
  rw [batchCalls, handleSyncResponse_events]
  rcases res with ⟨errors, nt, mt, ua⟩
  match errors with
  | [] => rfl
  | .syncError cat code msg :: rest =>
    rw [List.filterMap_append, List.filterMap_append, filterMap_batch_notifs]
    rfl
  | .genericIssue msg intl :: rest =>
    rw [List.filterMap_append, List.filterMap_append, filterMap_batch_notifs]
    rfl

/-- `handleSyncResponse` issues no individual provider call. -/
theorem bankSyncCalls_handleSyncResponse (a : String) (res : SyncResponse)
    (st : AccountState) (agg : Agg) :
    bankSyncCalls (handleSyncResponse a res st agg).2.2.1 = [] := by
  rw [bankSyncCalls, handleSyncResponse_events]
  rcases res with ⟨errors, nt, mt, ua⟩
  match errors with
  | [] => rfl
  | .syncError cat code msg :: rest =>
    rw [List.filterMap_append, List.filterMap_append, filterMap_banksync_notifs]
    rfl
  | .genericIssue msg intl :: rest =>
    rw [List.filterMap_append, List.filterMap_append, filterMap_banksync_notifs]
    rfl

/-- `handleSyncResponse` publishes no transaction-update event. -/
theorem publishedAggregates_handleSyncResponse (a : String) (res : SyncResponse)
    (st : AccountState) (agg : Agg) :
    publishedAggregates (handleSyncResponse a res st agg).2.2.1 = [] := by
  rw [publishedAggregates, handleSyncResponse_events]
  rcases res with ⟨errors, nt, mt, ua⟩
  match errors with
  | [] => rfl
  | .syncError cat code msg :: rest =>
    rw [List.filterMap_append, List.filterMap_append, filterMap_published_notifs]
    rfl
  | .genericIssue msg intl :: rest =>
    rw [List.filterMap_append, List.filterMap_append, filterMap_published_notifs]
    rfl

/-! ### Projection algebra -/

theorem progressPubs_nil : progressPubs [] = [] := rfl

theorem batchCalls_nil : batchCalls [] = [] := rfl

theorem bankSyncCalls_nil : bankSyncCalls [] = [] := rfl

theorem notifications_nil : notifications [] = [] := rfl

theorem publishedAggregates_nil : publishedAggregates [] = [] := rfl

theorem progressPubs_append (l1 l2 : List Event) :
    progressPubs (l1 ++ l2) = progressPubs l1 ++ progressPubs l2 :=
  List.filterMap_append l1 l2 eventProgressIds

theorem progressPubs_cons (e : Event) (l : List Event) :
    progressPubs (e :: l) =
      (match eventProgressIds e with
       | some ids => ids :: progressPubs l
       | none => progressPubs l) := by
  rw [progressPubs, List.filterMap_cons]
  match e with
  | .setAccountsSyncing ids => rfl
  | .providerAccountsGet => rfl
  | .providerBatchSync _ => rfl
  | .providerBankSync _ => rfl
  | .accountFailed _ _ _ => rfl
  | .accountSuccess _ => rfl
  | .notify _ _ => rfl
  | .refreshAccounts => rfl
  | .publishTransactions _ _ _ => rfl

theorem batchCalls_append (l1 l2 : List Event) :
    batchCalls (l1 ++ l2) = batchCalls l1 ++ batchCalls l2 :=
  List.filterMap_append l1 l2 eventBatchIds

theorem batchCalls_cons (e : Event) (l : List Event) :
    batchCalls (e :: l) =
      (match eventBatchIds e with
       | some ids => ids :: batchCalls l
       | none => batchCalls l) := by
  rw [batchCalls, List.filterMap_cons]
  match e with
  | .setAccountsSyncing ids => rfl
  | .providerAccountsGet => rfl
  | .providerBatchSync _ => rfl
  | .providerBankSync _ => rfl
  | .accountFailed _ _ _ => rfl
  | .accountSuccess _ => rfl
  | .notify _ _ => rfl
  | .refreshAccounts => rfl
  | .publishTransactions _ _ _ => rfl

theorem bankSyncCalls_append (l1 l2 : List Event) :
    bankSyncCalls (l1 ++ l2) = bankSyncCalls l1 ++ bankSyncCalls l2 :=
  List.filterMap_append l1 l2 eventBankSyncIds

theorem bankSyncCalls_cons (e : Event) (l : List Event) :
    bankSyncCalls (e :: l) =
      (match eventBankSyncIds e with
       | some ids => ids :: bankSyncCalls l
       | none => bankSyncCalls l) := by
  rw [bankSyncCalls, List.filterMap_cons]
  match e with
  | .setAccountsSyncing ids => rfl
  | .providerAccountsGet => rfl
  | .providerBatchSync _ => rfl
  | .providerBankSync _ => rfl
  | .accountFailed _ _ _ => rfl
  | .accountSuccess _ => rfl
  | .notify _ _ => rfl
  | .refreshAccounts => rfl
  | .publishTransactions _ _ _ => rfl

theorem publishedAggregates_append (l1 l2 : List Event) :
    publishedAggregates (l1 ++ l2) =
      publishedAggregates l1 ++ publishedAggregates l2 :=
  List.filterMap_append l1 l2 eventPublished

theorem publishedAggregates_cons (e : Event) (l : List Event) :
    publishedAggregates (e :: l) =
      (match eventPublished e with
       | some x => x :: publishedAggregates l
       | none => publishedAggregates l) := by
  rw [publishedAggregates, List.filterMap_cons]
  match e with
  | .setAccountsSyncing ids => rfl
  | .providerAccountsGet => rfl
  | .providerBatchSync _ => rfl
  | .providerBankSync _ => rfl
  | .accountFailed _ _ _ => rfl
  | .accountSuccess _ => rfl
  | .notify _ _ => rfl
  | .refreshAccounts => rfl
  | .publishTransactions _ _ _ => rfl

theorem notifications_append (l1 l2 : List Event) :
    notifications (l1 ++ l2) = notifications l1 ++ notifications l2 :=
  List.filterMap_append l1 l2 eventNotify

theorem notifications_cons (e : Event) (l : List Event) :
    notifications (e :: l) =
      (match eventNotify e with
       | some x => x :: notifications l
       | none => notifications l) := by
  rw [notifications, List.filterMap_cons]
  match e with
  | .setAccountsSyncing ids => rfl
  | .providerAccountsGet => rfl
  | .providerBatchSync _ => rfl
  | .providerBankSync _ => rfl
  | .accountFailed _ _ _ => rfl
  | .accountSuccess _ => rfl
  | .notify _ _ => rfl
  | .refreshAccounts => rfl
  | .publishTransactions _ _ _ => rfl

/-- The notification payload carried for one issue. -/
theorem notifications_of_issues (es : List SyncIssue) :
    notifications (es.map issueNotification) =
      es.map (fun e =>
        match e with
        | .syncError _ _ message => (message, (none : Option String))
        | .genericIssue message internal => (message, internal)) := by
  induction es with
  | nil => rfl
  | cons e rest ih =>
    cases e <;> simp [issueNotification, notifications_cons, eventNotify, ih]

/-! ### Phase trace lemmas -/

theorem progressPubs_runSequentialPhase (p : Provider) (l : List String)
    (st : AccountState) (agg : Agg) (ok : Bool) :
    progressPubs (runSequentialPhase p l st agg ok).2.2.2 = suffixes l := by
  induction l generalizing st agg ok with
  | nil => rfl
  | cons a rest ih =>
    simp [runSequentialPhase, suffixes, progressPubs_append, progressPubs_cons,
      eventProgressIds, progressPubs_handleSyncResponse, ih]

theorem bankSyncCalls_runSequentialPhase (p : Provider) (l : List String)
    (st : AccountState) (agg : Agg) (ok : Bool) :
    bankSyncCalls (runSequentialPhase p l st agg ok).2.2.2
      = l.map (fun i => [i]) := by
  induction l generalizing st agg ok with
  | nil => rfl
  | cons a rest ih =>
    simp [runSequentialPhase, bankSyncCalls_append, bankSyncCalls_cons,
      eventBankSyncIds, bankSyncCalls_handleSyncResponse, ih]

theorem batchCalls_runSequentialPhase (p : Provider) (l : List String)
    (st : AccountState) (agg : Agg) (ok : Bool) :
    batchCalls (runSequentialPhase p l st agg ok).2.2.2 = [] := by
  induction l generalizing st agg ok with
  | nil => rfl
  | cons a rest ih =>
    simp [runSequentialPhase, batchCalls_append, batchCalls_cons,
      eventBatchIds, batchCalls_handleSyncResponse, ih]

theorem publishedAggregates_runSequentialPhase (p : Provider) (l : List String)
    (st : AccountState) (agg : Agg) (ok : Bool) :
    publishedAggregates (runSequentialPhase p l st agg ok).2.2.2 = [] := by
  induction l generalizing st agg ok with
  | nil => rfl
  | cons a rest ih =>
    simp [runSequentialPhase, publishedAggregates_append, publishedAggregates_cons,
      eventPublished, publishedAggregates_handleSyncResponse, ih]

theorem batchCalls_runBatchPhase (results : List (String × SyncResponse))
    (st : AccountState) (agg : Agg) (ok : Bool) :
    batchCalls (runBatchPhase results st agg ok).2.2.2 = [] := by
  induction results generalizing st agg ok with
  | nil => rfl
  | cons x rest ih =>
    rcases x with ⟨a, res⟩
    simp [runBatchPhase, batchCalls_append, batchCalls_handleSyncResponse, ih]

theorem bankSyncCalls_runBatchPhase (results : List (String × SyncResponse))
    (st : AccountState) (agg : Agg) (ok : Bool) :
    bankSyncCalls (runBatchPhase results st agg ok).2.2.2 = [] := by
  induction results generalizing st agg ok with
  | nil => rfl
  | cons x rest ih =>
    rcases x with ⟨a, res⟩
    simp [runBatchPhase, bankSyncCalls_append, bankSyncCalls_handleSyncResponse, ih]

theorem progressPubs_runBatchPhase (results : List (String × SyncResponse))
    (st : AccountState) (agg : Agg) (ok : Bool) :
    progressPubs (runBatchPhase results st agg ok).2.2.2 = [] := by
  induction results generalizing st agg ok with
  | nil => rfl
  | cons x rest ih =>
    rcases x with ⟨a, res⟩
    simp [runBatchPhase, progressPubs_append, progressPubs_handleSyncResponse, ih]

theorem publishedAggregates_runBatchPhase (results : List (String × SyncResponse))
    (st : AccountState) (agg : Agg) (ok : Bool) :
    publishedAggregates (runBatchPhase results st agg ok).2.2.2 = [] := by
  induction results generalizing st agg ok with
  | nil => rfl
  | cons x rest ih =>
    rcases x with ⟨a, res⟩
    simp [runBatchPhase, publishedAggregates_append,
      publishedAggregates_handleSyncResponse, ih]

/-! ### Concrete fixtures -/

def emptyResponse : SyncResponse := ⟨[], [], [], []⟩

/-- A provider that returns nothing everywhere. -/
def trivProvider : Provider := ⟨[], fun _ => [], fun _ => emptyResponse⟩

/-! ### Claims -/

/-- C1: if the sync-progress list is non-empty at entry, `syncAccounts`
returns `false`, performs no provider calls (its trace is empty), and
leaves the state (both `failedAccounts` and `accountsSyncing`) unchanged. -/
theorem C1_single_flight (targetId : Option String) (p : Provider)
    (qa : List AccountEntity) (st : AccountState)
    (h : st.accountsSyncing ≠ []) :
    syncAccounts targetId p qa st = ⟨false, st, []⟩ := by
  unfold syncAccounts
  rw [if_pos (List.length_pos.2 h)]

/-- Witness for C1 at a concrete non-empty sync-progress state. -/
theorem C1_single_flight_witness :
    syncAccounts none trivProvider [] ⟨[], ["a"]⟩ = ⟨false, ⟨[], ["a"]⟩, []⟩ :=
  C1_single_flight none trivProvider [] ⟨[], ["a"]⟩ (by decide)

/-- C4: the health transition of `handleSyncResponse` is decided by the
first issue only: an empty error sequence deletes the account's failure
entry; a first `SyncError` issue write/overwrites it with the issue's
category and code; a first generic issue leaves the whole state untouched,
regardless of any later issues. -/
theorem C4_first_issue_authority (a : String) (st : AccountState) (agg : Agg)
    (nt mt ua : List String) (cat code msg : String) (intl : Option String)
    (rest : List SyncIssue) :
    getFailed (handleSyncResponse a ⟨[], nt, mt, ua⟩ st agg).1 a = none ∧
    getFailed (handleSyncResponse a
        ⟨.syncError cat code msg :: rest, nt, mt, ua⟩ st agg).1 a
      = some ⟨cat, code⟩ ∧
    (handleSyncResponse a ⟨.genericIssue msg intl :: rest, nt, mt, ua⟩ st agg).1
      = st :=
  ⟨getFailed_markAccountSuccess_self st a,
   getFailed_markAccountFailed_self st a cat code, rfl⟩

/-- C7: the failure entry is last-writer-wins: a classified error followed
by a clean response leaves no entry; a clean response followed by a
classified error leaves exactly that error's category and code, whatever
the prior failure map contained. -/
theorem C7_last_writer_wins (a x y m : String) (st : AccountState)
    (agg agg2 : Agg) (nt mt ua nt2 mt2 ua2 : List String) :
    getFailed (handleSyncResponse a ⟨[], nt2, mt2, ua2⟩
        (handleSyncResponse a ⟨[.syncError x y m], nt, mt, ua⟩ st agg).1
        agg2).1 a = none ∧
    getFailed (handleSyncResponse a ⟨[.syncError x y m], nt2, mt2, ua2⟩
        (handleSyncResponse a ⟨[], nt, mt, ua⟩ st agg).1 agg2).1 a
      = some ⟨x, y⟩ :=
  ⟨getFailed_markAccountSuccess_self _ a,
   getFailed_markAccountFailed_self _ a x y⟩

/-- C8: `handleSyncResponse` emits exactly one error notification per
issue of the error sequence, in order: a `SyncError` issue contributes its
message (no internal detail), any other issue contributes its message and
its optional internal detail. -/
theorem C8_notification_per_issue (a : String) (res : SyncResponse)
    (st : AccountState) (agg : Agg) :
    notifications (handleSyncResponse a res st agg).2.2.1 =
      res.errors.map (fun e =>
        match e with
        | .syncError _ _ message => (message, (none : Option String))
        | .genericIssue message internal => (message, internal)) := by
  rw [handleSyncResponse_events]
  rcases res with ⟨errors, nt, mt, ua⟩
  match errors with
  | [] => rfl
  | .syncError c1 c2 m :: rest =>
    simp [notifications_append, notifications_cons, notifications_nil,
      eventNotify, issueNotification, notifications_of_issues]
  | .genericIssue m i :: rest =>
    simp [notifications_append, notifications_cons, notifications_nil,
      eventNotify, issueNotification, notifications_of_issues]

/-- C10: one `handleSyncResponse` call touches at most the failure entry
of the account it is given: `accountsSyncing` and every other account's
failure lookup are unchanged. -/
theorem C10_frame (a : String) (res : SyncResponse) (st : AccountState)
    (agg : Agg) :
    (handleSyncResponse a res st agg).1.accountsSyncing = st.accountsSyncing ∧
    ∀ k : String, k ≠ a →
      getFailed (handleSyncResponse a res st agg).1 k = getFailed st k := by
  rcases res with ⟨errors, nt, mt, ua⟩
  match errors with
  | [] =>
    exact ⟨rfl, fun k hk => getFailed_markAccountSuccess_other st a k hk⟩
  | .syncError c1 c2 m :: rest =>
    exact ⟨rfl, fun k hk => getFailed_markAccountFailed_other st a c1 c2 k hk⟩
  | .genericIssue m i :: rest =>
    exact ⟨rfl, fun _ _ => rfl⟩

/-- Witness for C10 on a concrete state holding another account's entry. -/
theorem C10_frame_witness :
    ("b" : String) ≠ "a" ∧
    getFailed (handleSyncResponse "a" emptyResponse
        ⟨[("b", ⟨"X", "Y"⟩)], []⟩ Agg.empty).1 "b"
      = getFailed ⟨[("b", ⟨"X", "Y"⟩)], []⟩ "b" :=
  ⟨by decide,
   (C10_frame "a" emptyResponse ⟨[("b", ⟨"X", "Y"⟩)], []⟩ Agg.empty).2 "b"
     (by decide)⟩

def exAccountA : AccountEntity := ⟨"A", some "bank", false, false, false, 2, none⟩

def exAccountB : AccountEntity := ⟨"B", some "bank", false, false, true, 1, none⟩

def exAccountC : AccountEntity := ⟨"C", some "bank", false, false, false, 1, none⟩

/-- C5: the "sync all" worklist is the ids of the eligible accounts
(`sortedEligible` filters on provider link, not closed, not tombstoned),
reordered into a permutation that is pairwise ordered with on-budget
accounts before off-budget accounts and ascending `sort_order` within each
group; on the spec's example accounts the order is `["C", "A", "B"]`. -/
theorem C5_worklist_order (qa : List AccountEntity) :
    computeWorklist qa = (sortedEligible qa).map AccountEntity.id ∧
    (sortedEligible qa).Perm (qa.filter syncEligible) ∧
    (sortedEligible qa).Pairwise specOrder ∧
    computeWorklist [exAccountA, exAccountB, exAccountC] = ["C", "A", "B"] := by
  refine ⟨rfl, ?_, ?_, ?_⟩
  · exact List.perm_insertionSort syncLe (qa.filter syncEligible)
  · exact List.Pairwise.imp (fun h => syncLe_imp_specOrder _ _ h)
      (List.sorted_insertionSort syncLe (qa.filter syncEligible))
  · rfl

/-- An eligible on-budget account with no batch sync source. -/
def onBudgetAccount (i : String) (so : Int) : AccountEntity :=
  ⟨i, some "bank", false, false, false, so, none⟩

def c2Provider : Provider :=
  { accountsGet := []
    simplefinBatchSync := fun _ => []
    accountsBankSync := fun i =>
      if i == "a1" then ⟨[], ["t1"], [], []⟩
      else if i == "a3" then ⟨[], ["t2", "t1"], [], []⟩
      else emptyResponse }

def c2Accounts : List AccountEntity :=
  [onBudgetAccount "a1" 1, onBudgetAccount "a2" 2, onBudgetAccount "a3" 3]

/-- C2 counterexample: on the spec's own example (three processed accounts
with `newTransactions` `["t1"]`, `[]`, `["t2","t1"]`), the published
transaction-update event carries `["t1","t2","t1"]` — the arrays are
concatenated, so the duplicate `"t1"` does NOT collapse. -/
theorem C2_counterexample :
    publishedAggregates
        (syncAccounts none c2Provider c2Accounts ⟨[], []⟩).events
      = [(["t1", "t2", "t1"], [], [])] ∧
    ¬ (["t1", "t2", "t1"] : List String).Nodup := by
  exact ⟨rfl, by decide⟩

/-- C2 amended: the published event carries the concatenation of the
processed accounts' `newTransactions` in processing order (duplicates
preserved); its element-set still equals the union `{"t1","t2"}`, and the
overall run success is `true`. -/
theorem C2_amended_concat :
    publishedAggregates
        (syncAccounts none c2Provider c2Accounts ⟨[], []⟩).events
      = [(["t1", "t2", "t1"], [], [])] ∧
    (∀ x : String,
      x ∈ (["t1", "t2", "t1"] : List String) ↔ (x = "t1" ∨ x = "t2")) ∧
    (syncAccounts none c2Provider c2Accounts ⟨[], []⟩).success = true := by
  refine ⟨rfl, ?_, rfl⟩
  intro x
  simp only [List.mem_cons, List.not_mem_nil, or_false]
  tauto

def c3OpenSF : AccountEntity :=
  ⟨"a", some "bank", false, false, false, 1, some "simpleFin"⟩

def c3ClosedSF : AccountEntity :=
  ⟨"b", some "bank", true, false, false, 2, some "simpleFin"⟩

def c3Accounts : List AccountEntity := [c3OpenSF, c3ClosedSF]

def c3Provider : Provider :=
  { accountsGet := [c3OpenSF, c3ClosedSF]
    simplefinBatchSync := fun _ => []
    accountsBankSync := fun _ => emptyResponse }

/-- C3 counterexample: account `"b"` is SimpleFin but closed, so it is not
in the worklist (whose batch-eligible subset is exactly `["a"]`), yet the
batch provider call is issued with `["a","b"]` — the batch set is computed
from the fresh account fetch, not from the worklist. -/
theorem C3_counterexample :
    batchCalls (syncAccounts none c3Provider c3Accounts ⟨[], []⟩).events
      = [["a", "b"]] ∧
    (accountIdsToSync none c3Accounts).filter
        (fun i => (c3Provider.accountsGet.filter isSimpleFin).any
          (fun sfa => sfa.id == i)) = ["a"] ∧
    ¬ (["a", "b"] : List String) = ["a"] := by
  exact ⟨rfl, rfl, by decide⟩

/-- C3 amended: in "sync all" mode with at least one SimpleFin account in
the fetched account data, the batch call carries the ids of all SimpleFin
accounts of the fresh `accounts-get` snapshot (whether or not they are in
the worklist), and the sequential path processes exactly the worklist ids
that do not match one of those fetched SimpleFin accounts. -/
theorem C3_amended (p : Provider) (qa : List AccountEntity)
    (st : AccountState) (h0 : st.accountsSyncing = [])
    (hne : (p.accountsGet.filter isSimpleFin).length > 0) :
    batchCalls (syncAccounts none p qa st).events
      = [(p.accountsGet.filter isSimpleFin).map AccountEntity.id] ∧
    bankSyncCalls (syncAccounts none p qa st).events
      = ((accountIdsToSync none qa).filter
          (fun i => !((p.accountsGet.filter isSimpleFin).any
            (fun sfa => sfa.id == i)))).map (fun i => [i]) := by
  constructor
  · simp [syncAccounts, h0, hne, batchCalls_append, batchCalls_cons,
      batchCalls_nil, eventBatchIds, batchCalls_runSequentialPhase,
      batchCalls_runBatchPhase]
  · simp [syncAccounts, h0, hne, bankSyncCalls_append, bankSyncCalls_cons,
      bankSyncCalls_nil, eventBankSyncIds, bankSyncCalls_runSequentialPhase,
      bankSyncCalls_runBatchPhase]

/-- Witness for C3 amended on the concrete fixture. -/
theorem C3_amended_witness :
    batchCalls (syncAccounts none c3Provider c3Accounts ⟨[], []⟩).events
      = [["a", "b"]] ∧
    bankSyncCalls (syncAccounts none c3Provider c3Accounts ⟨[], []⟩).events
      = [] := by
  have h := C3_amended c3Provider c3Accounts ⟨[], []⟩ rfl (by decide)
  exact ⟨by rw [h.1]; rfl, by rw [h.2]; rfl⟩

def c6SF : AccountEntity :=
  ⟨"s1", some "bank", false, false, false, 1, some "simpleFin"⟩

def c6Plain : AccountEntity :=
  ⟨"a", some "bank", false, false, false, 2, none⟩

def c6Accounts : List AccountEntity := [c6SF, c6Plain]

def c6Provider : Provider :=
  { accountsGet := [c6SF]
    simplefinBatchSync := fun _ => [("s1", emptyResponse)]
    accountsBankSync := fun _ => emptyResponse }

/-- C6 counterexample: with worklist `["s1","a"]` and `"s1"` batch-routed,
the publications are `[["s1","a"], [], []]`: the publication after the
only sequential step (which processed `"a"`) drops BOTH `"s1"` and `"a"`,
so it does not shrink the previous publication by exactly the
just-processed identifier (that would require `["s1","a"] = "a" :: []`). -/
theorem C6_counterexample :
    progressPubs (syncAccounts none c6Provider c6Accounts ⟨[], []⟩).events
      = [["s1", "a"], [], []] ∧
    ¬ (["s1", "a"] : List String) = "a" :: [] := by
  exact ⟨rfl, by decide⟩

/-- C6 amended: in a run without a batch phase (a target id given, or no
SimpleFin account in the fetched data), sync progress is published at run
start with the full worklist, after each sequential step with the
not-yet-processed suffix (shrinking by exactly the just-processed head),
and as the empty list at run end. With a batch phase the sequential
publications are suffixes of the batch-filtered list instead. -/
theorem C6_progress_no_batch (targetId : Option String) (p : Provider)
    (qa : List AccountEntity) (st : AccountState)
    (h0 : st.accountsSyncing = [])
    (hb : targetId = none → p.accountsGet.filter isSimpleFin = []) :
    progressPubs (syncAccounts targetId p qa st).events
      = accountIdsToSync targetId qa ::
          (suffixes (accountIdsToSync targetId qa) ++ [[]]) := by
  rcases targetId with _ | t
  · have hb' := hb rfl
    simp [syncAccounts, h0, hb', progressPubs_append, progressPubs_cons,
      progressPubs_nil, eventProgressIds, progressPubs_runSequentialPhase]
  · simp [syncAccounts, h0, progressPubs_append, progressPubs_cons,
      progressPubs_nil, eventProgressIds, progressPubs_runSequentialPhase]

/-- Witness for C6 amended on a concrete no-batch run. -/
theorem C6_progress_no_batch_witness :
    progressPubs
        (syncAccounts none trivProvider [onBudgetAccount "a1" 1] ⟨[], []⟩).events
      = ["a1"] :: (suffixes ["a1"] ++ [[]]) :=
  C6_progress_no_batch none trivProvider [onBudgetAccount "a1" 1] ⟨[], []⟩
    rfl (fun _ => rfl)

/-- C9: with a target account id supplied, the batch provider call is
never issued (even for a batch-eligible account), the individual calls are
exactly one call for the target, and the initial progress publication is
exactly `[target]`. -/
theorem C9_target_no_batch (t : String) (p : Provider)
    (qa : List AccountEntity) (st : AccountState)
    (h0 : st.accountsSyncing = []) :
    batchCalls (syncAccounts (some t) p qa st).events = [] ∧
    bankSyncCalls (syncAccounts (some t) p qa st).events = [[t]] ∧
    (progressPubs (syncAccounts (some t) p qa st).events).head? = some [t] := by
  refine ⟨?_, ?_, ?_⟩
  · simp [syncAccounts, h0, accountIdsToSync, batchCalls_append,
      batchCalls_cons, batchCalls_nil, eventBatchIds,
      batchCalls_runSequentialPhase]
  · simp [syncAccounts, h0, accountIdsToSync, bankSyncCalls_append,
      bankSyncCalls_cons, bankSyncCalls_nil, eventBankSyncIds,
      bankSyncCalls_runSequentialPhase]
  · simp [syncAccounts, h0, accountIdsToSync, progressPubs_append,
      progressPubs_cons, progressPubs_nil, eventProgressIds,
      progressPubs_runSequentialPhase]

/-- Witness for C9 with a batch-eligible target account. -/
theorem C9_target_no_batch_witness :
    batchCalls (syncAccounts (some "a") c3Provider c3Accounts ⟨[], []⟩).events
      = [] ∧
    bankSyncCalls (syncAccounts (some "a") c3Provider c3Accounts ⟨[], []⟩).events
      = [["a"]] ∧
    (progressPubs
        (syncAccounts (some "a") c3Provider c3Accounts ⟨[], []⟩).events).head?
      = some ["a"] :=
  C9_target_no_batch "a" c3Provider c3Accounts ⟨[], []⟩ rfl

end ActualSync
